import Mathlib

/-!
Verification development for the NIFTY50 stock-data ingestion pipeline
(`data_fetch.py` and `data_fetch_v1.py`).

The pipeline's store is a SQLite database with one table per stock symbol,
keyed by the `datetime` column (`datetime TEXT PRIMARY KEY`).  Rows are
inserted with `INSERT OR IGNORE`, so a row whose timestamp already exists in
the table is silently discarded.  We embed the store as a total map from
symbols to lists of OHLCV rows (a table that was never written to is the
empty list, matching a freshly created empty table), and `INSERT OR IGNORE`
as a fold that appends a row only when its timestamp is absent.

Timestamps are modelled as natural numbers (seconds); prices and volume as
integers.  Nothing in the verified properties depends on the numeric domain
of the OHLCV payload, only on timestamp equality and ordering, which the
TEXT ISO-format primary key provides in the SQLite store.
-/

namespace StockFetch

/-- One OHLCV record: the row shape of each per-stock table
(`datetime, open, high, low, close, volume`).  `open` is a Lean keyword,
hence the trailing underscore. -/
structure Row where
  timestamp : Nat
  open_ : Int
  high : Int
  low : Int
  close : Int
  volume : Int
deriving DecidableEq, Repr

/-- The store: one series (table) per symbol.  A symbol never inserted into
has the empty series, matching the empty table `init_db` creates. -/
abbrev Store := String → List Row

/-- The empty store: every table empty. -/
def emptyStore : Store := fun _ => []

/-- Whether the series already holds a row with the given timestamp
(the `datetime TEXT PRIMARY KEY` lookup that `INSERT OR IGNORE` performs). -/
def tsMem (t : Nat) (S : List Row) : Bool :=
  S.any fun x => x.timestamp = t

/-- One `INSERT OR IGNORE` of a single row: appended only when no row with
its timestamp exists; otherwise the statement is a no-op. -/
def insertRow (S : List Row) (r : Row) : List Row :=
  if tsMem r.timestamp S then S else S ++ [r]

/-- `insert_data(stock, df)` restricted to one series: `cursor.executemany`
runs the single-row `INSERT OR IGNORE` statement once per row of `df`,
in order. -/
def insert_data (S : List Row) (rows : List Row) : List Row :=
  rows.foldl insertRow S

/-- `insert_data` at store level: only the addressed symbol's table changes. -/
def upsertStore (st : Store) (sym : String) (rows : List Row) : Store :=
  fun s => if s = sym then insert_data (st s) rows else st s

/-- The Python `insert_data` has no `return` statement: its value is `None`,
never a row count. -/
def insert_data_ret (_S _rows : List Row) : Option Nat := none

/-- The count `main` logs after a successful insert:
`logging.info(f"Inserted {len(df)} rows ...")`, i.e. the number of rows
submitted, computed before any duplicate suppression. -/
def reportedCount (rows : List Row) : Nat := rows.length

/-- The number of rows actually added to the series by one `insert_data`
call (post-deduplication). -/
def insertedCount (S rows : List Row) : Nat :=
  (insert_data S rows).length - S.length

/- ### Basic lemmas about the upsert -/

theorem insertRow_of_tsMem {S : List Row} {r : Row}
    (h : tsMem r.timestamp S = true) : insertRow S r = S := by
  simp [insertRow, h]

theorem insertRow_of_not_tsMem {S : List Row} {r : Row}
    (h : tsMem r.timestamp S = false) : insertRow S r = S ++ [r] := by
  simp [insertRow, h]

theorem tsMem_insertRow_mono {t : Nat} {S : List Row} (r : Row)
    (h : tsMem t S = true) : tsMem t (insertRow S r) = true := by
  unfold insertRow
  split
  · exact h
  · unfold tsMem at h ⊢
    simp only [List.any_append, h, Bool.true_or]

theorem tsMem_insertRow_self (S : List Row) (r : Row) :
    tsMem r.timestamp (insertRow S r) = true := by
  unfold insertRow
  split
  · assumption
  · unfold tsMem
    simp

theorem tsMem_insert_data_mono {t : Nat} (R : List Row) :
    ∀ {S : List Row}, tsMem t S = true → tsMem t (insert_data S R) = true := by
  induction R with
  | nil => intro S h; exact h
  | cons r R ih =>
      intro S h
      exact ih (tsMem_insertRow_mono r h)

theorem tsMem_insert_data_of_mem {r : Row} (R : List Row) :
    ∀ (S : List Row), r ∈ R → tsMem r.timestamp (insert_data S R) = true := by
  induction R with
  | nil => intro S h; cases h
  | cons a R ih =>
      intro S h
      rcases List.mem_cons.mp h with h | h
      · subst h
        exact tsMem_insert_data_mono R (tsMem_insertRow_self S r)
      · exact ih (insertRow S a) h

theorem insert_data_of_all_tsMem (R : List Row) :
    ∀ (S : List Row), (∀ r ∈ R, tsMem r.timestamp S = true) →
    insert_data S R = S := by
  induction R with
  | nil => intro S _; rfl
  | cons a R ih =>
      intro S h
      have ha : insertRow S a = S :=
        insertRow_of_tsMem (h a (List.mem_cons_self a R))
      show insert_data (insertRow S a) R = S
      rw [ha]
      exact ih S fun r hr => h r (List.mem_cons_of_mem a hr)

theorem insert_data_idem (S R : List Row) :
    insert_data (insert_data S R) R = insert_data S R :=
  insert_data_of_all_tsMem R (insert_data S R)
    (fun _ hr => tsMem_insert_data_of_mem R S hr)

/- ### Length bounds used for the reported-count analysis -/

theorem length_insertRow_le (S : List Row) (r : Row) :
    (insertRow S r).length ≤ S.length + 1 := by
  unfold insertRow
  split
  · omega
  · simp

theorem length_le_insertRow (S : List Row) (r : Row) :
    S.length ≤ (insertRow S r).length := by
  unfold insertRow
  split
  · omega
  · simp

theorem length_insert_data_le (R : List Row) :
    ∀ (S : List Row), (insert_data S R).length ≤ S.length + R.length := by
  induction R with
  | nil => intro S; simp [insert_data]
  | cons a R ih =>
      intro S
      have h1 := ih (insertRow S a)
      have h2 := length_insertRow_le S a
      calc (insert_data S (a :: R)).length
          = (insert_data (insertRow S a) R).length := rfl
        _ ≤ (insertRow S a).length + R.length := h1
        _ ≤ S.length + (a :: R).length := by simp; omega

theorem length_le_insert_data (R : List Row) :
    ∀ (S : List Row), S.length ≤ (insert_data S R).length := by
  induction R with
  | nil => intro S; simp [insert_data]
  | cons a R ih =>
      intro S
      have h1 := ih (insertRow S a)
      have h2 := length_le_insertRow S a
      calc S.length ≤ (insertRow S a).length := h2
        _ ≤ (insert_data (insertRow S a) R).length := h1

/- ### Key uniqueness -/

/-- No two rows of the series share a timestamp (the `PRIMARY KEY`
invariant). -/
def tsNodup (S : List Row) : Prop :=
  (S.map Row.timestamp).Nodup

theorem tsNodup_insertRow {S : List Row} (r : Row)
    (h : tsNodup S) : tsNodup (insertRow S r) := by
  unfold insertRow
  split
  · exact h
  · rename_i hmem
    unfold tsNodup at h ⊢
    rw [List.map_append]
    simp only [List.map_cons, List.map_nil]
    rw [List.nodup_append]
    refine ⟨h, List.nodup_singleton _, ?_⟩
    intro t ht ht'
    simp only [List.mem_singleton] at ht'
    subst ht'
    rcases List.mem_map.mp ht with ⟨x, hx, hxt⟩
    have : tsMem r.timestamp S = true := by
      unfold tsMem
      rw [List.any_eq_true]
      exact ⟨x, hx, by simp [hxt]⟩
    rw [this] at hmem
    simp at hmem

theorem tsNodup_insert_data (R : List Row) :
    ∀ {S : List Row}, tsNodup S → tsNodup (insert_data S R) := by
  induction R with
  | nil => intro S h; exact h
  | cons a R ih =>
      intro S h
      exact ih (tsNodup_insertRow a h)

/- ### Store operation sequences (for the key-uniqueness invariant) -/

/-- The store operations the scripts perform.  `init_db` only runs
`CREATE TABLE IF NOT EXISTS`, which leaves every existing table untouched;
`update_readme` only reads.  Neither changes any series. -/
inductive Op where
  | initDb : Op
  | insertData (sym : String) (rows : List Row) : Op
  | updateReadme : Op

/-- Effect of one operation on the store. -/
def applyOp (st : Store) : Op → Store
  | .initDb => st
  | .insertData sym rows => upsertStore st sym rows
  | .updateReadme => st

/-- Run a sequence of operations from the empty store. -/
def runOps (ops : List Op) : Store :=
  ops.foldl applyOp emptyStore

theorem tsNodup_applyOp {st : Store} (op : Op)
    (h : ∀ s, tsNodup (st s)) : ∀ s, tsNodup (applyOp st op s) := by
  cases op with
  | initDb => exact h
  | updateReadme => exact h
  | insertData sym rows =>
      intro s
      show tsNodup (upsertStore st sym rows s)
      unfold upsertStore
      split
      · exact tsNodup_insert_data rows (h s)
      · exact h s

theorem tsNodup_foldl (ops : List Op) :
    ∀ (st : Store), (∀ s, tsNodup (st s)) →
    ∀ s, tsNodup (ops.foldl applyOp st s) := by
  induction ops with
  | nil => intro st h s; exact h s
  | cons op ops ih =>
      intro st h s
      exact ih (applyOp st op) (tsNodup_applyOp op h) s

/- ### The fetch step -/

/-- Behaviour of the external provider (`yf.download`) for one symbol:
either it returns a row set (possibly empty), or the call raises. -/
inductive FetchOutcome where
  | rows (l : List Row) : FetchOutcome
  | raise : FetchOutcome
deriving DecidableEq

/-- `fetch_stock_data(stock)` of `data_fetch.py`: the whole body is wrapped
in `try/except Exception`, so a raising provider call is caught, logged and
turned into `None`; an empty frame is also logged and turned into `None`;
otherwise the (timezone-converted, renamed) rows are returned.  Timezone
conversion and column renaming do not change our timestamp model, so a
successful result is the row list itself. -/
def fetch_stock_data (env : String → FetchOutcome) (stock : String) :
    Option (List Row) :=
  match env stock with
  | .raise => none
  | .rows l => if l.isEmpty then none else some l

/- ### The cycle (`main` of `data_fetch.py`) -/

/-- Failures of the persistence layer during `insert_data` (e.g. a SQLite
I/O error).  `main` does not guard the `insert_data` call with any
`try/except`, so such an exception propagates out of the per-stock loop. -/
inductive StoreErr where
  | storeError : StoreErr
deriving DecidableEq

/-- Result of a completed cycle: the final store, plus the snapshot step's
input store (the snapshot is rendered from the final store exactly once,
after the loop). -/
structure CycleResult where
  store : Store
  snapshotStore : Store

/-- One iteration of `main`'s per-stock loop: fetch (all provider errors
already swallowed inside `fetch_stock_data`), then, when data arrived,
`insert_data` — which is NOT wrapped in `try/except` in `main`, so a store
failure (`upsertRaises stock = true`) escapes the loop. -/
def stepStock (fetchEnv : String → FetchOutcome) (upsertRaises : String → Bool)
    (st : Store) (stock : String) : Except StoreErr Store :=
  match fetch_stock_data fetchEnv stock with
  | none => Except.ok st
  | some df =>
      if df.isEmpty then Except.ok st
      else if upsertRaises stock then Except.error StoreErr.storeError
      else Except.ok (upsertStore st stock df)

/-- `main`'s loop over the stock basket. -/
def runStocks (fetchEnv : String → FetchOutcome) (upsertRaises : String → Bool) :
    Store → List String → Except StoreErr Store
  | st, [] => Except.ok st
  | st, stock :: rest =>
      match stepStock fetchEnv upsertRaises st stock with
      | Except.error e => Except.error e
      | Except.ok st' => runStocks fetchEnv upsertRaises st' rest

/-- One whole cycle of `main`: `init_db` (a store no-op on existing tables),
the per-stock loop, then `update_readme` once.  An exception escaping the
loop aborts the cycle before the snapshot step runs. -/
def main_cycle (stocks : List String) (fetchEnv : String → FetchOutcome)
    (upsertRaises : String → Bool) (st0 : Store) :
    Except StoreErr CycleResult :=
  match runStocks fetchEnv upsertRaises st0 stocks with
  | Except.error e => Except.error e
  | Except.ok st => Except.ok ⟨st, st⟩

theorem runStocks_ok_of_no_upsert_raise (fetchEnv : String → FetchOutcome)
    (upsertRaises : String → Bool) (hno : ∀ s, upsertRaises s = false)
    (stocks : List String) :
    ∀ (st0 : Store), ∃ st, runStocks fetchEnv upsertRaises st0 stocks =
      Except.ok st ∧ ∀ s, fetchEnv s = .raise → st s = st0 s := by
  induction stocks with
  | nil =>
      intro st0
      exact ⟨st0, rfl, fun _ _ => rfl⟩
  | cons stock rest ih =>
      intro st0
      have hstep : ∃ st1, stepStock fetchEnv upsertRaises st0 stock =
          Except.ok st1 ∧ ∀ s, fetchEnv s = .raise → st1 s = st0 s := by
        unfold stepStock fetch_stock_data
        cases henv : fetchEnv stock with
        | raise => exact ⟨st0, rfl, fun _ _ => rfl⟩
        | rows l =>
            by_cases hl : l.isEmpty
            · simp only [hl, if_true]
              exact ⟨st0, rfl, fun _ _ => rfl⟩
            · simp only [hl, if_false, hno stock, Bool.false_eq_true]
              refine ⟨upsertStore st0 stock l, rfl, ?_⟩
              intro s hs
              unfold upsertStore
              split
              · rename_i heq
                subst heq
                rw [hs] at henv
                cases henv
              · rfl
      rcases hstep with ⟨st1, hst1, hpres1⟩
      rcases ih st1 with ⟨st, hst, hpres⟩
      refine ⟨st, ?_, ?_⟩
      · show (match stepStock fetchEnv upsertRaises st0 stock with
          | Except.error e => Except.error e
          | Except.ok st' => runStocks fetchEnv upsertRaises st' rest) =
            Except.ok st
        rw [hst1]
        exact hst
      · intro s hs
        rw [hpres s hs, hpres1 s hs]

/- ### The aligned-bucket window (v1, lines 106–112) -/

/-- The window arithmetic written in v1's `fetch_stock_data`:
`minute = (now.minute // 15) * 15`,
`end_time = now.replace(minute=minute, second=0, microsecond=0)`,
`start_time = end_time - timedelta(minutes=15)`.
Instants are seconds; the minute field of `now` is `(now / 60) % 60` and the
second field `now % 60`, so `replace` subtracts the second field and the old
minute field and adds the floored minute field back. -/
def computeWindow (now : Nat) : Nat × Nat :=
  let minute := ((now / 60) % 60) / 15 * 15
  let end_time := now - now % 60 - 60 * ((now / 60) % 60) + 60 * minute
  let start_time := end_time - 15 * 60
  (start_time, end_time)

/-- v1 line 112: `df[(df["Datetime"] >= start_time) & (df["Datetime"] < end_time)]`,
the half-open window filter. -/
def windowFilter (start_time end_time : Nat) (rows : List Row) : List Row :=
  rows.filter fun r =>
    decide (start_time ≤ r.timestamp) && decide (r.timestamp < end_time)

theorem computeWindow_end (now : Nat) :
    (computeWindow now).2 = now - now % 900 := by
  show now - now % 60 - 60 * ((now / 60) % 60) + 60 * (((now / 60) % 60) / 15 * 15)
      = now - now % 900
  omega

theorem computeWindow_start (now : Nat) :
    (computeWindow now).1 = (computeWindow now).2 - 15 * 60 := rfl

theorem mem_windowFilter {s e : Nat} {rows : List Row} {r : Row} :
    r ∈ windowFilter s e rows ↔ r ∈ rows ∧ s ≤ r.timestamp ∧ r.timestamp < e := by
  unfold windowFilter
  rw [List.mem_filter]
  simp

/- ### The v1 fetch step and its missing `timedelta` import -/

/-- Module-level names bound in `data_fetch_v1.py`: the imports (`import os`,
`import sqlite3`, `import logging`, `from datetime import datetime`,
`import pytz`, `import yfinance as yf`, `import pandas as pd`,
`from tabulate import tabulate`) and the module's own top-level definitions.
`from datetime import datetime` binds only the name `datetime`; `timedelta`
is never imported. -/
def v1BoundNames : List String :=
  ["os", "sqlite3", "logging", "datetime", "pytz", "yf", "pd", "tabulate",
   "DB_NAME", "README_FILE", "STOCKS", "IST",
   "init_db", "insert_data", "fetch_stock_data", "update_readme", "main"]

/-- Python name resolution at v1 module scope. -/
def v1Resolves (n : String) : Bool := v1BoundNames.contains n

/-- Exceptions the v1 fetch body can raise on its own. -/
inductive PyExn where
  | nameError (missing : String) : PyExn
deriving DecidableEq

/-- Body of v1 `fetch_stock_data` after the provider call returned `rows`:
an empty frame returns `None`; otherwise lines 106–108 compute `minute` and
`end_time`, line 109 evaluates the name `timedelta` — raising `NameError`
when it is unbound — and on success line 112 filters the rows to the
half-open window. -/
def fetch_body_v1 (rows : List Row) (now : Nat) :
    Except PyExn (Option (List Row)) :=
  if rows.isEmpty then Except.ok none
  else
    let minute := ((now / 60) % 60) / 15 * 15
    let end_time := now - now % 60 - 60 * ((now / 60) % 60) + 60 * minute
    if v1Resolves "timedelta" then
      let start_time := end_time - 15 * 60
      Except.ok (some (windowFilter start_time end_time rows))
    else Except.error (PyExn.nameError "timedelta")

/-- v1 `fetch_stock_data`: the whole body sits in `try/except Exception`,
so a raising provider call — and any exception from the body, including the
`NameError` — is logged and turned into `None`. -/
def fetch_stock_data_v1 (env : String → FetchOutcome) (stock : String)
    (now : Nat) : Option (List Row) :=
  match env stock with
  | .raise => none
  | .rows l =>
      match fetch_body_v1 l now with
      | Except.ok r => r
      | Except.error _ => none

/-- The store after v1 `main`'s per-stock loop (v1 `insert_data` itself is
exception-free in this model; the loop inserts only when the fetch returned
a non-empty frame). -/
def main_v1_store (stocks : List String) (env : String → FetchOutcome)
    (now : Nat) (st0 : Store) : Store :=
  stocks.foldl (fun st stock =>
    match fetch_stock_data_v1 env stock now with
    | none => st
    | some df => if df.isEmpty then st else upsertStore st stock df) st0

theorem v1Resolves_timedelta : v1Resolves "timedelta" = false := by decide

theorem fetch_body_v1_eq (rows : List Row) (now : Nat) :
    fetch_body_v1 rows now =
      if rows.isEmpty then Except.ok none
      else Except.error (PyExn.nameError "timedelta") := by
  unfold fetch_body_v1
  rw [v1Resolves_timedelta]
  simp

theorem fetch_stock_data_v1_none (env : String → FetchOutcome)
    (stock : String) (now : Nat) :
    fetch_stock_data_v1 env stock now = none := by
  unfold fetch_stock_data_v1
  cases env stock with
  | raise => rfl
  | rows l =>
      show (match fetch_body_v1 l now with
        | Except.ok r => r
        | Except.error _ => none) = none
      rw [fetch_body_v1_eq]
      by_cases h : l.isEmpty <;> simp [h]

theorem main_v1_store_eq (stocks : List String) (env : String → FetchOutcome)
    (now : Nat) : ∀ st0 : Store, main_v1_store stocks env now st0 = st0 := by
  induction stocks with
  | nil => intro st0; rfl
  | cons stock rest ih =>
      intro st0
      show List.foldl _ (match fetch_stock_data_v1 env stock now with
        | none => st0
        | some df => if df.isEmpty then st0 else upsertStore st0 stock df) rest = st0
      rw [fetch_stock_data_v1_none]
      exact ih st0

/- ### The snapshot query (`update_readme`) -/

/-- Descending-timestamp order, the `ORDER BY datetime DESC` of the snapshot
query (the TEXT ISO timestamps compare chronologically). -/
def tsGe (a b : Row) : Prop := b.timestamp ≤ a.timestamp

instance : DecidableRel tsGe := fun a b => Nat.decLe b.timestamp a.timestamp

instance : IsTotal Row tsGe := ⟨fun a b => Nat.le_total b.timestamp a.timestamp⟩

instance : IsTrans Row tsGe :=
  ⟨fun _ _ _ hab hbc => Nat.le_trans hbc hab⟩

/-- `SELECT * FROM '{stock}' ORDER BY datetime DESC LIMIT k`: sort the
series by descending timestamp and keep the first `k` rows.  On a missing
or empty table this is the empty result (the surrounding `try/except` in
`update_readme` turns a missing-table error into a skipped section, which
coincides with the empty result in the total-map store model). -/
def read_recent (S : List Row) (k : Nat) : List Row :=
  (List.insertionSort tsGe S).take k

/-- The per-stock sections `update_readme` emits: for each stock of the
basket, the `LIMIT 2` query result, skipping the stock entirely when the
result is empty (`if df.empty: continue`). -/
def update_readme (st : Store) (stocks : List String) :
    List (String × List Row) :=
  stocks.filterMap fun s =>
    if (read_recent (st s) 2).isEmpty then none
    else some (s, read_recent (st s) 2)

theorem length_read_recent (S : List Row) (k : Nat) :
    (read_recent S k).length = min k S.length := by
  unfold read_recent
  rw [List.length_take, List.length_insertionSort]

theorem read_recent_sorted (S : List Row) (k : Nat) :
    List.Pairwise tsGe (read_recent S k) :=
  List.Pairwise.sublist (List.take_sublist k _)
    (List.sorted_insertionSort tsGe S)

theorem mem_of_mem_read_recent {S : List Row} {k : Nat} {r : Row}
    (h : r ∈ read_recent S k) : r ∈ S :=
  (List.mem_insertionSort tsGe).mp ((List.take_sublist k _).mem h)

theorem read_recent_topk {S : List Row} {k : Nat} {r r' : Row}
    (hr : r ∈ read_recent S k) (hr' : r' ∈ S)
    (hout : r' ∉ read_recent S k) : r'.timestamp ≤ r.timestamp := by
  have hsorted : List.Pairwise tsGe (List.insertionSort tsGe S) :=
    List.sorted_insertionSort tsGe S
  have hsplit : (List.insertionSort tsGe S).take k ++
      (List.insertionSort tsGe S).drop k = List.insertionSort tsGe S :=
    List.take_append_drop k _
  have hpw : List.Pairwise tsGe ((List.insertionSort tsGe S).take k ++
      (List.insertionSort tsGe S).drop k) := by
    rw [hsplit]; exact hsorted
  have cross := (List.pairwise_append.mp hpw).2.2
  have hr'L : r' ∈ List.insertionSort tsGe S :=
    (List.mem_insertionSort tsGe).mpr hr'
  have hr'drop : r' ∈ (List.insertionSort tsGe S).drop k := by
    rw [← hsplit] at hr'L
    rcases List.mem_append.mp hr'L with h | h
    · exact absurd h hout
    · exact h
  exact cross r hr r' hr'drop

theorem read_recent_isEmpty_iff (S : List Row) :
    (read_recent S 2).isEmpty = true ↔ S = [] := by
  rw [List.isEmpty_iff_length_eq_zero, length_read_recent]
  constructor
  · intro h
    have : S.length = 0 := by omega
    exact List.length_eq_zero.mp this
  · intro h
    subst h
    rfl

theorem update_readme_mem_iff (st : Store) (stocks : List String) (s : String) :
    (∃ rows, (s, rows) ∈ update_readme st stocks) ↔
      s ∈ stocks ∧ st s ≠ [] := by
  unfold update_readme
  constructor
  · rintro ⟨rows, h⟩
    rcases List.mem_filterMap.mp h with ⟨a, ha, hEq⟩
    by_cases hemp : (read_recent (st a) 2).isEmpty = true
    · rw [hemp] at hEq
      simp at hEq
    · rw [Bool.not_eq_true] at hemp
      rw [hemp] at hEq
      simp only [Bool.false_eq_true, if_false, Option.some.injEq, Prod.mk.injEq] at hEq
      rcases hEq with ⟨heq, _⟩
      rw [← heq]
      refine ⟨ha, ?_⟩
      intro hnil
      rw [(read_recent_isEmpty_iff (st a)).mpr hnil] at hemp
      cases hemp
  · rintro ⟨hs, hne⟩
    have hemp : (read_recent (st s) 2).isEmpty = false := by
      rcases Bool.eq_false_or_eq_true ((read_recent (st s) 2).isEmpty) with h | h
      · exact absurd ((read_recent_isEmpty_iff (st s)).mp h) hne
      · exact h
    refine ⟨read_recent (st s) 2, List.mem_filterMap.mpr ⟨s, hs, ?_⟩⟩
    rw [hemp]
    simp

/- ### Concrete rows for the examples -/

/-- A row at timestamp T1. -/
def rowT1 : Row := ⟨60, 1, 2, 0, 1, 100⟩

/-- A row at timestamp T2. -/
def rowT2 : Row := ⟨120, 3, 4, 2, 3, 200⟩

/-- A second row at timestamp T2 with a different OHLCV payload. -/
def rowT2' : Row := ⟨120, 9, 9, 9, 9, 999⟩

/-- A row at timestamp T3. -/
def rowT3 : Row := ⟨180, 5, 6, 4, 5, 300⟩

/-- Rows at 10:00:00, 10:01:00 and 10:02:00 (seconds of day). -/
def rowX0 : Row := ⟨36000, 10, 11, 9, 10, 50⟩

/-- Row at 10:01:00. -/
def rowX1 : Row := ⟨36060, 10, 12, 9, 11, 60⟩

/-- Row at 10:02:00. -/
def rowX2 : Row := ⟨36120, 11, 13, 10, 12, 70⟩

/- ### C1 -/

/-- C1: upsert (`insert_data`, i.e. `INSERT OR IGNORE` per row) is
idempotent — applying it twice with the same row set yields the same series
as applying it once — and ingesting rows for timestamps {T1,T2} and then
for {T2,T3} leaves exactly the rows at {T1,T2,T3}, each inserted once. -/
theorem C1_upsert_idempotent_dedup :
    (∀ S R : List Row, insert_data (insert_data S R) R = insert_data S R) ∧
    (∀ r1 r2 r2' r3 : Row,
      r1.timestamp ≠ r2.timestamp → r1.timestamp ≠ r3.timestamp →
      r2.timestamp ≠ r3.timestamp → r2'.timestamp = r2.timestamp →
      insert_data (insert_data [] [r1, r2]) [r2', r3] = [r1, r2, r3]) := by
  constructor
  · exact insert_data_idem
  · intro r1 r2 r2' r3 h12 h13 h23 h2'
    have e1 : insert_data [] [r1, r2] = [r1, r2] := by
      show insertRow (insertRow [] r1) r2 = [r1, r2]
      have m1 : insertRow ([] : List Row) r1 = [r1] := rfl
      rw [m1]
      have m2 : tsMem r2.timestamp [r1] = false := by
        simp [tsMem, h12]
      rw [insertRow_of_not_tsMem m2]
      rfl
    rw [e1]
    show insertRow (insertRow [r1, r2] r2') r3 = [r1, r2, r3]
    have m3 : tsMem r2'.timestamp [r1, r2] = true := by
      simp [tsMem, h2']
    rw [insertRow_of_tsMem m3]
    have m4 : tsMem r3.timestamp [r1, r2] = false := by
      simp [tsMem]
      exact ⟨h13, h23⟩
    rw [insertRow_of_not_tsMem m4]
    rfl

/-- Witness for C1 at concrete rows: timestamps {60,120} then {120,180}
(different payload at 120) give exactly the three first-written rows. -/
theorem C1_upsert_idempotent_dedup_witness :
    insert_data (insert_data [] [rowT1, rowT2]) [rowT2', rowT3] =
      [rowT1, rowT2, rowT3] :=
  C1_upsert_idempotent_dedup.2 rowT1 rowT2 rowT2' rowT3
    (by decide) (by decide) (by decide) (by decide)

/- ### C2 -/

/-- C2: after any sequence of `init_db`, `insert_data` and read/snapshot
operations starting from the empty store, no series contains two rows with
equal timestamps (the `datetime TEXT PRIMARY KEY` invariant). -/
theorem C2_key_uniqueness (ops : List Op) (sym : String) :
    tsNodup (runOps ops sym) :=
  tsNodup_foldl ops emptyStore (fun _ => List.nodup_nil) sym

/- ### C3 -/

/-- C3: first-write-wins — upserting a single row whose timestamp already
has a record leaves the series (hence the stored record) unchanged, even
when the incoming OHLCV payload differs. -/
theorem C3_first_write_wins (S : List Row) (r x : Row)
    (hx : x ∈ S) (ht : x.timestamp = r.timestamp) :
    insert_data S [r] = S := by
  have hmem : tsMem r.timestamp S = true := by
    unfold tsMem
    rw [List.any_eq_true]
    exact ⟨x, hx, by simp [ht]⟩
  show insertRow S r = S
  exact insertRow_of_tsMem hmem

/-- Witness for C3: a row at timestamp 120 with payload (9,...) is discarded
against the stored row at 120 with payload (3,...). -/
theorem C3_first_write_wins_witness :
    insert_data [rowT2] [rowT2'] = [rowT2] :=
  C3_first_write_wins [rowT2] rowT2' rowT2 (by decide) (by decide)

/- ### C4 -/

/-- C4: the aligned-bucket window arithmetic written at v1 lines 106–112
floors `now` to the 15-minute boundary (`end = now − now % 900`, so the
second field is zero and the minute field is a multiple of 15), sets
`start = end − 15·60`, and filters rows to the half-open window
`start ≤ t < end`; concretely 10:07:00 gives [09:45:00, 10:00:00) and
10:15:00 gives [10:00:00, 10:15:00).  At runtime, however, the body raises
`NameError` at the `timedelta` use before any filtering happens (the last
conjunct evaluates the v1 body at such an input). -/
theorem C4_aligned_window :
    (∀ now : Nat, (computeWindow now).2 = now - now % 900) ∧
    (∀ now : Nat, (computeWindow now).2 % 60 = 0) ∧
    (∀ now : Nat, ((computeWindow now).2 / 60) % 15 = 0) ∧
    (∀ now : Nat, (computeWindow now).1 = (computeWindow now).2 - 15 * 60) ∧
    (∀ (s e : Nat) (rows : List Row) (r : Row),
      r ∈ windowFilter s e rows ↔
        r ∈ rows ∧ s ≤ r.timestamp ∧ r.timestamp < e) ∧
    computeWindow 36420 = (35100, 36000) ∧
    computeWindow 36900 = (36000, 36900) ∧
    fetch_body_v1 [rowT1] 36420 = Except.error (PyExn.nameError "timedelta") := by
  refine ⟨computeWindow_end, ?_, ?_, computeWindow_start,
    fun _ _ _ _ => mem_windowFilter, by decide, by decide, rfl⟩
  · intro now
    rw [computeWindow_end]
    omega
  · intro now
    rw [computeWindow_end]
    omega

/- ### C5 -/

/-- Provider behaviour for the C5 counterexample: every symbol's fetch
succeeds with one row. -/
def ceFetchEnv : String → FetchOutcome := fun _ => FetchOutcome.rows [rowT1]

/-- Store behaviour for the C5 counterexample: the upsert for symbol "B"
raises a persistence error. -/
def ceUpsertRaises : String → Bool := fun s => s == "B"

/-- C5 counterexample: a store error raised during instrument "B"'s upsert
is NOT caught at the instrument boundary — `main` wraps no `try/except`
around `insert_data` — so the cycle aborts, instrument "C" is never
processed and the snapshot step never runs. -/
theorem C5_claim_counterexample :
    main_cycle ["A", "B", "C"] ceFetchEnv ceUpsertRaises emptyStore =
      Except.error StoreErr.storeError := rfl

/-- C5 as amended: errors during the FETCH step are caught at the
instrument boundary (inside `fetch_stock_data`); provided no upsert raises,
the cycle completes, the snapshot runs once on the final store, a
fetch-failed instrument's series is left unchanged, and (when its series
started empty) that instrument has no snapshot section. -/
theorem C5_fetch_isolation (stocks : List String)
    (fetchEnv : String → FetchOutcome) (upsertRaises : String → Bool)
    (st0 : Store) (hno : ∀ s, upsertRaises s = false) :
    ∃ st, main_cycle stocks fetchEnv upsertRaises st0 =
        Except.ok ⟨st, st⟩ ∧
      (∀ s, fetchEnv s = FetchOutcome.raise → st s = st0 s) ∧
      (∀ s, fetchEnv s = FetchOutcome.raise → st0 s = [] →
        ¬∃ rows, (s, rows) ∈ update_readme st stocks) := by
  rcases runStocks_ok_of_no_upsert_raise fetchEnv upsertRaises hno stocks st0
    with ⟨st, h1, h2⟩
  refine ⟨st, ?_, h2, ?_⟩
  · unfold main_cycle
    rw [h1]
  · intro s hs h0 hex
    have hne := (update_readme_mem_iff st stocks s).mp hex
    exact hne.2 ((h2 s hs).trans h0)

/-- Provider behaviour for the C5 witness: instrument "B"'s provider call
raises (a simulated `SourceUnavailable`); "A" and "C" return one row. -/
def wFetchEnv : String → FetchOutcome :=
  fun s => if s == "B" then FetchOutcome.raise else FetchOutcome.rows [rowT1]

/-- Witness for C5 as amended, at the spec's scenario: basket [A,B,C], B's
fetch fails, no upsert error. -/
theorem C5_fetch_isolation_witness :
    ∃ st, main_cycle ["A", "B", "C"] wFetchEnv (fun _ => false) emptyStore =
        Except.ok ⟨st, st⟩ ∧
      (∀ s, wFetchEnv s = FetchOutcome.raise → st s = emptyStore s) ∧
      (∀ s, wFetchEnv s = FetchOutcome.raise → emptyStore s = [] →
        ¬∃ rows, (s, rows) ∈ update_readme st ["A", "B", "C"]) :=
  C5_fetch_isolation ["A", "B", "C"] wFetchEnv (fun _ => false) emptyStore
    (fun _ => rfl)

/- ### C6 -/

/-- Series already holding the row at timestamp 120. -/
def dupStore : List Row := [rowT2]

/-- Submitted rows: a duplicate at 120 (different payload) and a new row. -/
def dupRows : List Row := [rowT2', rowT3]

/-- C6 counterexample: `insert_data` has no `return` statement (value
`None`, not a count), and the count `main` reports (`len(df)` = 2) differs
from the number of rows actually inserted after duplicate suppression (1). -/
theorem C6_claim_counterexample :
    insert_data_ret dupStore dupRows = none ∧
    reportedCount dupRows ≠ insertedCount dupStore dupRows := by
  exact ⟨rfl, by decide⟩

/-- C6 as amended: `insert_data` returns no count (`None`), and the count
the caller reports is the submitted row count, an upper bound on — in
general different from — the true number of newly inserted rows. -/
theorem C6_reported_count_bound (S rows : List Row) :
    insert_data_ret S rows = none ∧
    insertedCount S rows ≤ reportedCount rows := by
  refine ⟨rfl, ?_⟩
  have h1 := length_insert_data_le rows S
  have h2 := length_le_insert_data rows S
  unfold insertedCount reportedCount
  omega

/- ### C7 -/

/-- Provider that returns zero rows for every symbol. -/
def envNoData : String → FetchOutcome := fun _ => FetchOutcome.rows []

/-- Provider whose call raises for every symbol. -/
def envRaise : String → FetchOutcome := fun _ => FetchOutcome.raise

/-- C7 counterexample: the zero-rows outcome and the provider-error outcome
both produce the same `None` result — the caller cannot distinguish them,
and no distinct `SourceUnavailable` value exists. -/
theorem C7_claim_counterexample :
    fetch_stock_data envNoData "RELIANCE.NS" = none ∧
    fetch_stock_data envRaise "RELIANCE.NS" = none ∧
    fetch_stock_data envNoData "RELIANCE.NS" =
      fetch_stock_data envRaise "RELIANCE.NS" :=
  ⟨rfl, rfl, rfl⟩

/-- C7 as amended: `fetch_stock_data` returns `None` exactly when the
provider call raises or returns zero rows; the two non-success outcomes are
collapsed into the same value (they differ only in the logged message). -/
theorem C7_fetch_none_iff (env : String → FetchOutcome) (stock : String) :
    fetch_stock_data env stock = none ↔
      env stock = FetchOutcome.raise ∨ env stock = FetchOutcome.rows [] := by
  unfold fetch_stock_data
  cases h : env stock with
  | raise => simp
  | rows l =>
      by_cases hl : l.isEmpty
      · have hnil : l = [] := by simpa [List.isEmpty_iff] using hl
        subst hnil
        simp
      · have hne : l ≠ [] := by simpa [List.isEmpty_iff] using hl
        simp [hl, hne]

/- ### C8 -/

/-- C8: the snapshot query (`ORDER BY datetime DESC LIMIT k`) returns the
k most-recent rows in descending timestamp order, the empty result on an
empty (or never-written) series, and only rows of the series; every row
left out is no newer than every row returned.  Concretely, after inserting
rows at 10:00, 10:01, 10:02, `read_recent _ 2` is [10:02-row, 10:01-row]. -/
theorem C8_read_recent_snapshot :
    (∀ k, read_recent [] k = []) ∧
    (∀ (S : List Row) (k : Nat),
      List.Pairwise (fun a b => b.timestamp ≤ a.timestamp) (read_recent S k)) ∧
    (∀ (S : List Row) (k : Nat), (read_recent S k).length = min k S.length) ∧
    (∀ (S : List Row) (k : Nat) (r : Row), r ∈ read_recent S k → r ∈ S) ∧
    (∀ (S : List Row) (k : Nat) (r r' : Row),
      r ∈ read_recent S k → r' ∈ S → r' ∉ read_recent S k →
      r'.timestamp ≤ r.timestamp) ∧
    read_recent (insert_data [] [rowX0, rowX1, rowX2]) 2 = [rowX2, rowX1] := by
  refine ⟨fun k => by simp [read_recent], fun S k => read_recent_sorted S k,
    length_read_recent,
    fun S k r h => mem_of_mem_read_recent h,
    fun S k r r' hr hr' hout => read_recent_topk hr hr' hout, by decide⟩

/-- Witness for C8's conditional part at concrete rows: the excluded older
row's timestamp is bounded by the returned row's. -/
theorem C8_read_recent_snapshot_witness :
    rowX0.timestamp ≤ rowX1.timestamp :=
  C8_read_recent_snapshot.2.2.2.2.1 [rowX0, rowX1] 1 rowX1 rowX0
    (by decide) (by decide) (by decide)

/- ### C9 -/

/-- C9: an instrument has a section in the rendered snapshot exactly when it
is in the configured basket and its series is non-empty — an empty series
produces no section at all. -/
theorem C9_empty_series_skip (st : Store) (stocks : List String) (s : String) :
    (∃ rows, (s, rows) ∈ update_readme st stocks) ↔
      s ∈ stocks ∧ st s ≠ [] :=
  update_readme_mem_iff st stocks s

/- ### C10 -/

/-- C10: in v1, `timedelta` is not among the module's bound names, so for
any non-empty provider result the fetch body raises `NameError` at line
109; the surrounding handler turns every outcome into `None`, hence v1's
`fetch_stock_data` always returns `None` and a v1 cycle never changes the
store. -/
theorem C10_v1_timedelta_nameerror :
    v1Resolves "timedelta" = false ∧
    (∀ (rows : List Row) (now : Nat), fetch_body_v1 rows now =
      if rows.isEmpty then Except.ok none
      else Except.error (PyExn.nameError "timedelta")) ∧
    (∀ (env : String → FetchOutcome) (stock : String) (now : Nat),
      fetch_stock_data_v1 env stock now = none) ∧
    (∀ (stocks : List String) (env : String → FetchOutcome) (now : Nat)
      (st0 : Store), main_v1_store stocks env now st0 = st0) :=
  ⟨v1Resolves_timedelta, fetch_body_v1_eq, fetch_stock_data_v1_none,
    fun stocks env now st0 => main_v1_store_eq stocks env now st0⟩

end StockFetch
